import Mathlib

/-!
Shallow embedding of the kernel core of `blog_os` (files `src/vga_buffer.rs`,
`src/task/keyboard.rs`, `src/task/simple_executor.rs`) and proofs of the
specified properties.

Machine bytes (`u8`) are modelled as `Nat`; every construction in the source
that could overflow is bounded by construction (color codes are below 256,
scancodes are opaque payloads), so no explicit modular reduction is needed.
-/

namespace BlogOS

/-! ## `src/vga_buffer.rs` -/

/-- The 16-color VGA palette, `enum Color` with `repr(u8)` discriminants 0..15. -/
inductive Color where
  | Black | Blue | Green | Cyan | Red | Magenta | Brown | LightGray
  | DarkGrey | LightBlue | LightGreen | LightCyan | LightRed | Pink | Yellow | White
deriving DecidableEq, Fintype

/-- The `repr(u8)` discriminant of a `Color` (`color as u8` in the source). -/
def Color.toU8 : Color → Nat
  | .Black => 0 | .Blue => 1 | .Green => 2 | .Cyan => 3
  | .Red => 4 | .Magenta => 5 | .Brown => 6 | .LightGray => 7
  | .DarkGrey => 8 | .LightBlue => 9 | .LightGreen => 10 | .LightCyan => 11
  | .LightRed => 12 | .Pink => 13 | .Yellow => 14 | .White => 15

/-- `ColorCode` is a transparent wrapper around a `u8`; we model it as the
byte value itself. -/
abbrev ColorCode : Type := Nat

/-- `ColorCode::new(foreground, background) = (background as u8) << 4 | (foreground as u8)`. -/
def ColorCode.new (foreground background : Color) : ColorCode :=
  Nat.lor (Nat.shiftLeft background.toU8 4) foreground.toU8

/-- `struct ScreenChar { ascii_character: u8, color_code: ColorCode }`. -/
structure ScreenChar where
  ascii_character : Nat
  color_code : ColorCode
deriving DecidableEq

def BUFFER_HEIGHT : Nat := 25
def BUFFER_WIDTH : Nat := 80

/-- The VGA text buffer `Buffer { chars }`, modelled as a total function from
(row, column) to the cell content.  The source only ever indexes rows
`< BUFFER_HEIGHT` and columns `< BUFFER_WIDTH`; cells outside that window are
carried along unchanged.  `Volatile` reads and writes are direct
reads and writes of this map (volatility only constrains the optimizer). -/
abbrev Buffer : Type := Nat → Nat → ScreenChar

/-- `struct Writer { column_position, color_code, buffer }`. -/
structure Writer where
  column_position : Nat
  color_code : ColorCode
  buffer : Buffer

/-- `Writer::clear_row(row)`: overwrite every cell of `row` (columns
`0..BUFFER_WIDTH`) with a blank `ScreenChar` (space, current color code). -/
def Writer.clear_row (w : Writer) (row : Nat) : Writer :=
  { w with buffer := fun r c =>
      if r = row ∧ c < BUFFER_WIDTH then
        { ascii_character := 0x20, color_code := w.color_code }
      else w.buffer r c }

/-- `Writer::new_line()`: for each row `1..BUFFER_HEIGHT` and column
`0..BUFFER_WIDTH`, copy the cell one row up (each source row is read before
it is itself overwritten, so the loop computes `row r ← row (r+1)` for
`r < BUFFER_HEIGHT - 1`); then clear the last row and reset the column. -/
def Writer.new_line (w : Writer) : Writer :=
  let shifted : Writer :=
    { w with buffer := fun r c =>
        if r + 1 < BUFFER_HEIGHT ∧ c < BUFFER_WIDTH then w.buffer (r + 1) c
        else w.buffer r c }
  let cleared := shifted.clear_row (BUFFER_HEIGHT - 1)
  { cleared with column_position := 0 }

/-- `Writer::write_byte(byte)`: newline bytes call `new_line`; any other byte
is written at `(BUFFER_HEIGHT - 1, column_position)` after an implicit
`new_line` when the current line is full (`column_position >= BUFFER_WIDTH`),
and the column advances by one. -/
def Writer.write_byte (w : Writer) (byte : Nat) : Writer :=
  if byte = 0x0a then
    w.new_line
  else
    let w :=
      if BUFFER_WIDTH ≤ w.column_position then w.new_line else w
    let row := BUFFER_HEIGHT - 1
    let col := w.column_position
    { w with
      buffer := fun r c =>
        if r = row ∧ c = col then
          { ascii_character := byte, color_code := w.color_code }
        else w.buffer r c
      column_position := w.column_position + 1 }

/-- `Writer::write_string(s)`: write each byte in order; printable ASCII
(`0x20..=0x7e`) and `\n` pass through, every other byte is replaced by the
placeholder glyph `0xfe` (the `for byte in s.bytes()` loop, as a recursion
over the byte list). -/
def Writer.write_string : Writer → List Nat → Writer
  | w, [] => w
  | w, byte :: rest =>
    if (0x20 ≤ byte ∧ byte ≤ 0x7e) ∨ byte = 0x0a then
      (w.write_byte byte).write_string rest
    else
      (w.write_byte 0xfe).write_string rest

/-- Decode the low nibble (bits 0–3) of a color code byte. -/
def ColorCode.lowNibble (c : ColorCode) : Nat := Nat.land c 0xf

/-- Decode bits 4–7 of a color code byte. -/
def ColorCode.highNibble (c : ColorCode) : Nat := Nat.land (Nat.shiftRight c 4) 0xf

/-- Recover a `Color` from its `repr(u8)` discriminant. -/
def Color.ofU8? : Nat → Option Color
  | 0 => some .Black | 1 => some .Blue | 2 => some .Green | 3 => some .Cyan
  | 4 => some .Red | 5 => some .Magenta | 6 => some .Brown | 7 => some .LightGray
  | 8 => some .DarkGrey | 9 => some .LightBlue | 10 => some .LightGreen
  | 11 => some .LightCyan | 12 => some .LightRed | 13 => some .Pink
  | 14 => some .Yellow | 15 => some .White
  | _ => none

/-- The blank cell written by `clear_row`: a space under the given color code. -/
def blankOf (code : ColorCode) : ScreenChar :=
  { ascii_character := 0x20, color_code := code }

/-- The color code of the global `WRITER` (`ColorCode::new(Yellow, Black)`). -/
def sampleColor : ColorCode := ColorCode.new .Yellow .Black

/-- A fully blank screen under `sampleColor`. -/
def sampleBuffer : Buffer := fun _ _ => blankOf sampleColor

/-- A concrete writer over the blank screen, at a chosen column. -/
def writerAtCol (k : Nat) : Writer :=
  { column_position := k, color_code := sampleColor, buffer := sampleBuffer }

/-! ## `src/task/keyboard.rs` -/

/-- `ArrayQueue::new(100)` in `ScancodeStream::new`. -/
def QUEUE_CAPACITY : Nat := 100

/-- The shared state of `keyboard.rs`: the `SCANCODE_QUEUE` one-time cell
(`none` while uninitialized, `some q` with `q` the queued bytes, oldest
first) and the `WAKER` slot of the `AtomicWaker` (`none` when empty,
`some cx` when a waker `cx` — modelled by an opaque identifier — is
registered). -/
structure KbState where
  queue : Option (List Nat)
  waker : Option Nat

/-- Observable side effects of the keyboard paths: the two `println!`
diagnostics and the unconditional `WAKER.wake()` call on a successful push
(which delivers a wakeup exactly when a waker is registered and is a no-op
on an empty slot). -/
inductive KbEvent where
  | warnQueueFull
  | warnUninit
  | wakeCalled
deriving DecidableEq

/-- `add_scancode(scancode)`: if the queue cell is initialized, try to push;
a push onto a full queue fails, drops the byte and prints a warning, a
successful push appends the byte and calls `WAKER.wake()` unconditionally.
If the cell is uninitialized, print a warning and return.  The result is
wrapped in `Except String` so that a Rust panic would be an `.error`
carrying the panic message; `add_scancode` has no panicking path and always
returns `.ok`. -/
def add_scancode (st : KbState) (scancode : Nat) :
    Except String (KbState × List KbEvent) :=
  match st.queue with
  | some q =>
    if QUEUE_CAPACITY ≤ q.length then
      .ok (st, [.warnQueueFull])
    else
      .ok ({ st with queue := some (q ++ [scancode]) }, [.wakeCalled])
  | none => .ok (st, [.warnUninit])

/-- Result of `ScancodeStream::poll_next`: `Poll::Ready(Some(scancode))` or
`Poll::Pending` (the stream never yields `Ready(None)`). -/
inductive PollRes where
  | ready (scancode : Nat)
  | pending
deriving DecidableEq

/-- `ScancodeStream::poll_next(cx)`.  `arrivals` are the bytes pushed by the
interrupt handler in the race window between the first (failed) pop and the
waker registration; in the fast path that window is never reached.  `.error`
models the `expect` panic when the queue cell is uninitialized.  Steps, as
in the source: first pop — if it yields a byte, return `Ready` at once;
otherwise `WAKER.register(cx)`, then pop again — on success `WAKER.take()`
and return `Ready`, on failure return `Pending`. -/
def ScancodeStream.poll_next (st : KbState) (arrivals : List Nat) (cx : Nat) :
    Except String (PollRes × KbState) :=
  match st.queue with
  | none => .error "Scancode queue not initialized!"
  | some q =>
    match q with
    | scancode :: rest => .ok (.ready scancode, { st with queue := some rest })
    | [] =>
      let st' : KbState := { queue := some arrivals, waker := some cx }
      match st'.queue with
      | some (scancode :: rest) =>
        .ok (.ready scancode, { queue := some rest, waker := none })
      | _ => .ok (.pending, st')

/-! ## `src/task/simple_executor.rs` -/

/-- Poll outcome of a `Task` (`Poll<()>`). -/
inductive TaskPoll where
  | ready
  | pending
deriving DecidableEq

/-- A `Task` (from `task/mod.rs`, used opaquely by the executor): an
asynchronous computation modelled by the outcome of each successive poll
together with the number of polls performed so far. -/
structure Task where
  behavior : Nat → TaskPoll
  polls : Nat

/-- `task.poll(&mut context)`: the outcome of the next poll, and the task
advanced by one poll. -/
def Task.poll (t : Task) : TaskPoll × Task :=
  (t.behavior t.polls, { t with polls := t.polls + 1 })

/-- `struct SimpleExecutor { task_queue: VecDeque<Task> }` (front of the
list = front of the deque). -/
structure SimpleExecutor where
  task_queue : List Task

/-- `SimpleExecutor::new()`. -/
def SimpleExecutor.new : SimpleExecutor := { task_queue := [] }

/-- `SimpleExecutor::spawn(task)`: `push_back`. -/
def SimpleExecutor.spawn (e : SimpleExecutor) (task : Task) : SimpleExecutor :=
  { task_queue := e.task_queue ++ [task] }

/-- The `wake` action of `dummy_raw_waker`'s vtable is `noop`: invoking
the waking handle leaves the executor state unchanged. -/
def dummy_wake (e : SimpleExecutor) : SimpleExecutor := e

/-- What one iteration of the `while` loop in `SimpleExecutor::run` does,
observably: polls the front task (with the dummy waker context) and either
drops it (`Ready`) or pushes it back (`Pending`).  `hlt` is the low-power
processor wait (`x86_64::instructions::hlt`); it is listed so its absence
from the loop's behavior can be stated. -/
inductive ExecAction where
  | polledReady
  | polledPending
  | hlt
deriving DecidableEq

/-- One iteration of `SimpleExecutor::run`: `pop_front`; if the queue is
empty the loop exits (`none`).  Otherwise poll the task with a context built
from `dummy_waker()`: on `Ready(())` the task is dropped, on `Pending` it is
pushed back onto the queue. -/
def SimpleExecutor.runStep (e : SimpleExecutor) :
    Option (SimpleExecutor × ExecAction) :=
  match e.task_queue with
  | [] => none
  | task :: rest =>
    match task.poll with
    | (.ready, _) => some ({ task_queue := rest }, .polledReady)
    | (.pending, task') => some ({ task_queue := rest ++ [task'] }, .polledPending)

/-- A concrete task whose every poll returns `Pending` (for example the
`print_keypresses` task while no scancode ever arrives). -/
def pendingTask : Task := { behavior := fun _ => TaskPoll.pending, polls := 0 }

/-! ## Helper lemmas -/

theorem clear_row_color_code (w : Writer) (r : Nat) :
    (w.clear_row r).color_code = w.color_code := rfl

theorem new_line_color_code (w : Writer) :
    (w.new_line).color_code = w.color_code := rfl

theorem new_line_column (w : Writer) :
    (w.new_line).column_position = 0 := rfl

theorem write_byte_color_code (w : Writer) (byte : Nat) :
    (w.write_byte byte).color_code = w.color_code := by
  unfold Writer.write_byte
  split
  · rfl
  · dsimp only
    split <;> rfl

theorem write_string_color_code (w : Writer) (s : List Nat) :
    (w.write_string s).color_code = w.color_code := by
  induction s generalizing w with
  | nil => rfl
  | cons b rest ih =>
    unfold Writer.write_string
    split
    · rw [ih, write_byte_color_code]
    · rw [ih, write_byte_color_code]

theorem write_byte_column_le (w : Writer) (byte : Nat) :
    (w.write_byte byte).column_position ≤ BUFFER_WIDTH := by
  unfold Writer.write_byte
  split
  · exact Nat.zero_le _
  · dsimp only
    split
    · rw [new_line_column]
      decide
    · omega

theorem write_string_column_le (w : Writer) (s : List Nat)
    (h : w.column_position ≤ BUFFER_WIDTH) :
    (w.write_string s).column_position ≤ BUFFER_WIDTH := by
  induction s generalizing w with
  | nil => exact h
  | cons b rest ih =>
    unfold Writer.write_string
    split
    · exact ih _ (write_byte_column_le w b)
    · exact ih _ (write_byte_column_le w 0xfe)

theorem write_byte_newline (w : Writer) : w.write_byte 0x0a = w.new_line := by
  unfold Writer.write_byte
  rw [if_pos rfl]

theorem write_byte_full_column (w : Writer) (byte : Nat) (hb : byte ≠ 0x0a)
    (h : BUFFER_WIDTH ≤ w.column_position) :
    w.write_byte byte = (w.new_line).write_byte byte := by
  unfold Writer.write_byte
  rw [if_neg hb, if_neg hb, if_pos h, if_neg (by rw [new_line_column]; decide)]

theorem new_line_buffer_shift (w : Writer) (r c : Nat)
    (hr : r + 1 < BUFFER_HEIGHT) (hc : c < BUFFER_WIDTH) :
    (w.new_line).buffer r c = w.buffer (r + 1) c := by
  have hne : ¬ (r = BUFFER_HEIGHT - 1 ∧ c < BUFFER_WIDTH) := by
    rintro ⟨h1, _⟩
    unfold BUFFER_HEIGHT at hr h1
    omega
  unfold Writer.new_line Writer.clear_row
  dsimp only
  rw [if_neg hne, if_pos ⟨hr, hc⟩]

theorem new_line_buffer_last (w : Writer) (c : Nat) (hc : c < BUFFER_WIDTH) :
    (w.new_line).buffer (BUFFER_HEIGHT - 1) c = blankOf w.color_code := by
  unfold Writer.new_line Writer.clear_row blankOf
  dsimp only
  rw [if_pos ⟨rfl, hc⟩]

theorem write_byte_norm (w : Writer) (byte : Nat) (hb : byte ≠ 0x0a)
    (h : w.column_position < BUFFER_WIDTH) :
    w.write_byte byte =
      { column_position := w.column_position + 1,
        color_code := w.color_code,
        buffer := fun r c =>
          if r = BUFFER_HEIGHT - 1 ∧ c = w.column_position then
            { ascii_character := byte, color_code := w.color_code }
          else w.buffer r c } := by
  unfold Writer.write_byte
  rw [if_neg hb, if_neg (Nat.not_le_of_lt h)]

theorem write_string_printable (s : List Nat) (w : Writer)
    (hp : ∀ b ∈ s, 0x20 ≤ b ∧ b ≤ 0x7e)
    (hcol : w.column_position + s.length ≤ BUFFER_WIDTH) :
    (w.write_string s).column_position = w.column_position + s.length ∧
    (∀ i, i < s.length →
      (w.write_string s).buffer (BUFFER_HEIGHT - 1) (w.column_position + i) =
        { ascii_character := s.getD i 0, color_code := w.color_code }) ∧
    (∀ r c, (r = BUFFER_HEIGHT - 1 → c < w.column_position ∨ w.column_position + s.length ≤ c) →
      (w.write_string s).buffer r c = w.buffer r c) := by
  induction s generalizing w with
  | nil =>
    refine ⟨rfl, ?_, ?_⟩
    · intro i hi
      exact absurd hi (Nat.not_lt_zero i)
    · intro r c _
      rfl
  | cons b rest ih =>
    have hpb := hp b (List.mem_cons_self b rest)
    have hb10 : b ≠ 0x0a := by omega
    have hlen2 : (b :: rest).length = rest.length + 1 := rfl
    have hcolb : w.column_position < BUFFER_WIDTH := by
      rw [hlen2] at hcol
      omega
    have hstep : w.write_string (b :: rest) =
        if (0x20 ≤ b ∧ b ≤ 0x7e) ∨ b = 0x0a then (w.write_byte b).write_string rest
        else (w.write_byte 0xfe).write_string rest := rfl
    rw [hstep, if_pos (Or.inl hpb), write_byte_norm w b hb10 hcolb]
    set wb : Writer :=
      { column_position := w.column_position + 1,
        color_code := w.color_code,
        buffer := fun r c =>
          if r = BUFFER_HEIGHT - 1 ∧ c = w.column_position then
            { ascii_character := b, color_code := w.color_code }
          else w.buffer r c } with hwb
    have hwbcol : wb.column_position = w.column_position + 1 := rfl
    have hwbbuf : wb.buffer = fun r c =>
        if r = BUFFER_HEIGHT - 1 ∧ c = w.column_position then
          ({ ascii_character := b, color_code := w.color_code } : ScreenChar)
        else w.buffer r c := rfl
    obtain ⟨ihcol, ihcells, ihframe⟩ :=
      ih wb (fun x hx => hp x (List.mem_cons_of_mem b hx))
        (by rw [hwbcol]; rw [hlen2] at hcol; omega)
    refine ⟨?_, ?_, ?_⟩
    · rw [ihcol, hwbcol, hlen2]
      omega
    · intro i hi
      match i with
      | 0 =>
        have hframe0 := ihframe (BUFFER_HEIGHT - 1) (w.column_position + 0)
          (fun _ => Or.inl (by rw [hwbcol]; omega))
        rw [hframe0, hwbbuf]
        dsimp only
        rw [if_pos ⟨rfl, Nat.add_zero _⟩]
        rfl
      | j + 1 =>
        have hj : j < rest.length := by
          rw [hlen2] at hi
          omega
        have hcell := ihcells j hj
        rw [hwbcol] at hcell
        rw [show w.column_position + (j + 1) = w.column_position + 1 + j by omega]
        exact hcell
    · intro r c hrc
      have hside : r = BUFFER_HEIGHT - 1 →
          c < wb.column_position ∨ wb.column_position + rest.length ≤ c := by
        intro hr
        rcases hrc hr with h1 | h1
        · exact Or.inl (by rw [hwbcol]; omega)
        · rw [hlen2] at h1
          exact Or.inr (by rw [hwbcol]; omega)
      rw [ihframe r c hside, hwbbuf]
      dsimp only
      rw [if_neg]
      rintro ⟨hr, hc⟩
      rcases hrc hr with h1 | h1
      · omega
      · rw [hlen2] at h1
        omega

/-! ## Claim theorems -/

/-- C8: for every pair (foreground, background) from the 16-color palette,
building a color code with `ColorCode::new` and decoding its low nibble and
its bits 4–7 returns exactly the original pair. -/
theorem colorcode_roundtrip :
    ∀ fg bg : Color,
      Color.ofU8? (ColorCode.lowNibble (ColorCode.new fg bg)) = some fg ∧
      Color.ofU8? (ColorCode.highNibble (ColorCode.new fg bg)) = some bg := by
  decide

/-- C10: `write_byte`, `new_line`, `write_string` and `clear_row` all leave
the writer's active color code unchanged. -/
theorem ops_preserve_color_code :
    ∀ (w : Writer) (byte r : Nat) (s : List Nat),
      (w.write_byte byte).color_code = w.color_code ∧
      (w.new_line).color_code = w.color_code ∧
      (w.write_string s).color_code = w.color_code ∧
      (w.clear_row r).color_code = w.color_code :=
  fun w byte r s =>
    ⟨write_byte_color_code w byte, new_line_color_code w,
     write_string_color_code w s, clear_row_color_code w r⟩

/-- C4: a newline byte, or a non-newline byte written at a full line
(`column ≥ width`), triggers the scroll `new_line`, which copies every row
`r` with `r + 1 < height` from row `r + 1`, clears the last row to blank
cells under the writer's current color code, and resets the column to 0;
the full-line byte is then written into the scrolled screen. -/
theorem scroll_spec (w : Writer) (byte : Nat) (hb : byte ≠ 0x0a)
    (hcol : BUFFER_WIDTH ≤ w.column_position) :
    w.write_byte 0x0a = w.new_line ∧
    w.write_byte byte = (w.new_line).write_byte byte ∧
    (w.new_line).column_position = 0 ∧
    (∀ r c, r + 1 < BUFFER_HEIGHT → c < BUFFER_WIDTH →
      (w.new_line).buffer r c = w.buffer (r + 1) c) ∧
    (∀ c, c < BUFFER_WIDTH →
      (w.new_line).buffer (BUFFER_HEIGHT - 1) c = blankOf w.color_code) :=
  ⟨write_byte_newline w, write_byte_full_column w byte hb hcol, new_line_column w,
   fun r c hr hc => new_line_buffer_shift w r c hr hc,
   fun c hc => new_line_buffer_last w c hc⟩

/-- Witness for C4, at the blank-screen writer with a full line
(column 80) and the byte `A`. -/
theorem scroll_spec_witness :
    (0x41 ≠ 0x0a) ∧ BUFFER_WIDTH ≤ (writerAtCol 80).column_position ∧
    ((writerAtCol 80).write_byte 0x0a = (writerAtCol 80).new_line ∧
     (writerAtCol 80).write_byte 0x41 =
       ((writerAtCol 80).new_line).write_byte 0x41 ∧
     ((writerAtCol 80).new_line).column_position = 0 ∧
     (∀ r c, r + 1 < BUFFER_HEIGHT → c < BUFFER_WIDTH →
       ((writerAtCol 80).new_line).buffer r c = (writerAtCol 80).buffer (r + 1) c) ∧
     (∀ c, c < BUFFER_WIDTH →
       ((writerAtCol 80).new_line).buffer (BUFFER_HEIGHT - 1) c =
         blankOf (writerAtCol 80).color_code)) :=
  ⟨by decide, by decide, scroll_spec (writerAtCol 80) 0x41 (by decide) (by decide)⟩

/-- C7: writing a newline-free string of printable bytes, of length less
than the width, to a freshly cleared writer (column 0, blank last row)
leaves the column at the string's length and the first `L` cells of the
last row equal to the string's bytes under the writer's color code;
and `write_string` renders any non-printable, non-newline byte as the
replacement glyph `0xfe` instead of the byte itself. -/
theorem write_string_fresh_spec (w : Writer) (s : List Nat) (b : Nat)
    (hw : w.column_position = 0)
    (_hblank : ∀ c, c < BUFFER_WIDTH →
      w.buffer (BUFFER_HEIGHT - 1) c = blankOf w.color_code)
    (hlen : s.length < BUFFER_WIDTH)
    (hp : ∀ x ∈ s, 0x20 ≤ x ∧ x ≤ 0x7e)
    (hb : ¬ (0x20 ≤ b ∧ b ≤ 0x7e)) (hbn : b ≠ 0x0a) :
    (w.write_string s).column_position = s.length ∧
    (∀ i, i < s.length →
      (w.write_string s).buffer (BUFFER_HEIGHT - 1) i =
        { ascii_character := s.getD i 0, color_code := w.color_code }) ∧
    (∀ w' : Writer, w'.write_string [b] = w'.write_byte 0xfe) := by
  obtain ⟨hcol, hcells, _⟩ :=
    write_string_printable s w hp (by rw [hw]; omega)
  refine ⟨by rw [hcol, hw, Nat.zero_add], ?_, ?_⟩
  · intro i hi
    have := hcells i hi
    rw [hw, Nat.zero_add] at this
    exact this
  · intro w'
    have hstep : w'.write_string [b] =
        if (0x20 ≤ b ∧ b ≤ 0x7e) ∨ b = 0x0a then (w'.write_byte b).write_string []
        else (w'.write_byte 0xfe).write_string [] := rfl
    rw [hstep, if_neg (fun h => h.elim hb hbn)]
    rfl

/-- Witness for C7, at the blank-screen writer, the string `"Hi"` and the
non-printable byte `0xff`. -/
theorem write_string_fresh_spec_witness :
    (writerAtCol 0).column_position = 0 ∧
    (∀ c, c < BUFFER_WIDTH →
      (writerAtCol 0).buffer (BUFFER_HEIGHT - 1) c = blankOf (writerAtCol 0).color_code) ∧
    ([0x48, 0x69] : List Nat).length < BUFFER_WIDTH ∧
    (∀ x ∈ ([0x48, 0x69] : List Nat), 0x20 ≤ x ∧ x ≤ 0x7e) ∧
    ¬ ((0x20 : Nat) ≤ 0xff ∧ (0xff : Nat) ≤ 0x7e) ∧
    ((0xff : Nat) ≠ 0x0a) ∧
    (((writerAtCol 0).write_string [0x48, 0x69]).column_position =
       ([0x48, 0x69] : List Nat).length ∧
     (∀ i, i < ([0x48, 0x69] : List Nat).length →
       ((writerAtCol 0).write_string [0x48, 0x69]).buffer (BUFFER_HEIGHT - 1) i =
         { ascii_character := ([0x48, 0x69] : List Nat).getD i 0,
           color_code := (writerAtCol 0).color_code }) ∧
     (∀ w' : Writer, w'.write_string [0xff] = w'.write_byte 0xfe)) :=
  ⟨rfl, fun c _ => rfl, by decide, by decide, by decide, by decide,
   write_string_fresh_spec (writerAtCol 0) [0x48, 0x69] 0xff rfl
     (fun c _ => rfl) (by decide) (by decide) (by decide) (by decide)⟩

/-- C9 counterexample: from the reachable state at column 79 (reachable by
writing 79 printable bytes to a fresh writer), writing one printable byte
leaves the column at 80 = `BUFFER_WIDTH`, so the claimed strict invariant
`column < width` fails after `write_byte`. -/
theorem column_invariant_cex :
    (writerAtCol 79).column_position < BUFFER_WIDTH ∧
    ¬ ((writerAtCol 79).write_byte 0x41).column_position < BUFFER_WIDTH := by
  constructor
  · decide
  · intro h
    exact absurd h (by decide)

/-- C9 amended: the invariant maintained by the code is `column ≤ width`:
if a writer satisfies it, then after `write_byte` (any byte), `new_line`,
and `write_string` (any string) it still satisfies it; the transient state
`column = width` arises exactly when the 80th cell of the bottom line has
just been filled and is resolved by the next written byte. -/
theorem column_le_width_amended (w : Writer) (byte : Nat) (s : List Nat)
    (h : w.column_position ≤ BUFFER_WIDTH) :
    (w.write_byte byte).column_position ≤ BUFFER_WIDTH ∧
    (w.new_line).column_position ≤ BUFFER_WIDTH ∧
    (w.write_string s).column_position ≤ BUFFER_WIDTH :=
  ⟨write_byte_column_le w byte, Nat.zero_le _, write_string_column_le w s h⟩

/-- Witness for C9 amended, at the fresh writer, byte `A`, string `"A"`. -/
theorem column_le_width_amended_witness :
    (writerAtCol 0).column_position ≤ BUFFER_WIDTH ∧
    (((writerAtCol 0).write_byte 0x41).column_position ≤ BUFFER_WIDTH ∧
     ((writerAtCol 0).new_line).column_position ≤ BUFFER_WIDTH ∧
     ((writerAtCol 0).write_string [0x41]).column_position ≤ BUFFER_WIDTH) :=
  ⟨by decide, column_le_width_amended (writerAtCol 0) 0x41 [0x41] (by decide)⟩

/-- C1: `poll_next` on an initialized queue: a byte found by the first pop
is yielded as `Ready` at once (waker slot untouched); on an empty queue the
caller's waker `cx` is registered and the pop retried exactly once — if the
retry finds a byte (one that arrived in the race window), the pending waker
slot is taken (cleared) and the byte yielded as `Ready`, and if the retry
finds nothing the result is `Pending` (with `cx` left registered). -/
theorem poll_next_spec (st : KbState) (q arrivals : List Nat) (cx : Nat)
    (hq : st.queue = some q) :
    (∀ b rest, q = b :: rest →
      ScancodeStream.poll_next st arrivals cx =
        .ok (.ready b, { st with queue := some rest })) ∧
    (q = [] → ∀ b rest, arrivals = b :: rest →
      ScancodeStream.poll_next st arrivals cx =
        .ok (.ready b, { queue := some rest, waker := none })) ∧
    (q = [] → arrivals = [] →
      ScancodeStream.poll_next st arrivals cx =
        .ok (.pending, { queue := some [], waker := some cx })) := by
  refine ⟨?_, ?_, ?_⟩
  · rintro b rest rfl
    unfold ScancodeStream.poll_next
    rw [hq]
  · rintro rfl b rest rfl
    unfold ScancodeStream.poll_next
    rw [hq]
  · rintro rfl rfl
    unfold ScancodeStream.poll_next
    rw [hq]

/-- Witness for C1, at an initialized empty queue with one byte arriving in
the race window. -/
theorem poll_next_spec_witness :
    (({ queue := some [], waker := none } : KbState).queue = some []) ∧
    ((∀ b rest, ([] : List Nat) = b :: rest →
       ScancodeStream.poll_next { queue := some [], waker := none } [0x2c] 5 =
         .ok (.ready b, { queue := some rest, waker := none })) ∧
     (([] : List Nat) = [] → ∀ b rest, ([0x2c] : List Nat) = b :: rest →
       ScancodeStream.poll_next { queue := some [], waker := none } [0x2c] 5 =
         .ok (.ready b, { queue := some rest, waker := none })) ∧
     (([] : List Nat) = [] → ([0x2c] : List Nat) = [] →
       ScancodeStream.poll_next { queue := some [], waker := none } [0x2c] 5 =
         .ok (.pending, { queue := some [], waker := some 5 }))) :=
  ⟨rfl, poll_next_spec { queue := some [], waker := none } [] [0x2c] 5 rfl⟩

/-- C5: `add_scancode` on an initialized queue: a push onto a full queue
fails without blocking, the byte is dropped (state unchanged) and the
queue-full warning is printed; a successful push appends the byte and calls
`WAKER.wake()` unconditionally — the theorem holds for every waker slot
content, including an empty one. -/
theorem add_scancode_spec (st : KbState) (q : List Nat) (b : Nat)
    (hq : st.queue = some q) :
    (QUEUE_CAPACITY ≤ q.length →
      add_scancode st b = .ok (st, [KbEvent.warnQueueFull])) ∧
    (q.length < QUEUE_CAPACITY →
      add_scancode st b =
        .ok ({ st with queue := some (q ++ [b]) }, [KbEvent.wakeCalled])) := by
  constructor
  · intro hfull
    unfold add_scancode
    rw [hq]
    dsimp only
    rw [if_pos hfull]
  · intro hroom
    unfold add_scancode
    rw [hq]
    dsimp only
    rw [if_neg (Nat.not_le_of_lt hroom)]

/-- Witness for C5, at an initialized empty queue with no registered waker
(no consumer): the push succeeds and the wake call still happens. -/
theorem add_scancode_spec_witness :
    (({ queue := some [], waker := none } : KbState).queue = some []) ∧
    ((QUEUE_CAPACITY ≤ ([] : List Nat).length →
       add_scancode { queue := some [], waker := none } 0x2a =
         .ok ({ queue := some [], waker := none }, [KbEvent.warnQueueFull])) ∧
     (([] : List Nat).length < QUEUE_CAPACITY →
       add_scancode { queue := some [], waker := none } 0x2a =
         .ok ({ queue := some [0x2a], waker := none }, [KbEvent.wakeCalled]))) :=
  ⟨rfl, add_scancode_spec { queue := some [], waker := none } [] 0x2a rfl⟩

/-- C6 counterexample: calling `add_scancode` before the queue is
constructed does not halt the system — it returns normally (`.ok`, not the
`.error` that models a panic) with the state unchanged, after printing the
uninitialized-queue warning.  This contradicts the claim that every
pre-construction use of the queue halts. -/
theorem add_scancode_uninit_no_halt_cex :
    add_scancode { queue := none, waker := none } 0x2a =
      .ok ({ queue := none, waker := none }, [KbEvent.warnUninit]) := rfl

/-- C6 amended: of the two pre-construction paths, only the consumer side
halts: `poll_next` on an uninitialized queue panics (halts) with the
diagnostic `Scancode queue not initialized!`, while `add_scancode` emits a
warning diagnostic and returns normally with the state unchanged, dropping
the scancode. -/
theorem uninit_paths_amended (st : KbState) (arrivals : List Nat) (cx b : Nat)
    (h : st.queue = none) :
    ScancodeStream.poll_next st arrivals cx =
      .error "Scancode queue not initialized!" ∧
    add_scancode st b = .ok (st, [KbEvent.warnUninit]) := by
  constructor
  · unfold ScancodeStream.poll_next
    rw [h]
  · unfold add_scancode
    rw [h]

/-- Witness for C6 amended, at the uninitialized state. -/
theorem uninit_paths_amended_witness :
    (({ queue := none, waker := some 9 } : KbState).queue = none) ∧
    (ScancodeStream.poll_next { queue := none, waker := some 9 } [] 4 =
       .error "Scancode queue not initialized!" ∧
     add_scancode { queue := none, waker := some 9 } 0x1e =
       .ok ({ queue := none, waker := some 9 }, [KbEvent.warnUninit])) :=
  ⟨rfl, uninit_paths_amended { queue := none, waker := some 9 } [] 4 0x1e rfl⟩

/-- C2 counterexample: a task polled by `SimpleExecutor` that returns
`Pending` does not remain absent from the ready set until its waking handle
is invoked — it is pushed straight back onto `task_queue` within the very
same loop iteration, and the dummy waking handle is a no-op, so invoking it
has no effect whatsoever on the executor. -/
theorem pending_requeued_without_wake_cex :
    SimpleExecutor.runStep { task_queue := [pendingTask] } =
      some ({ task_queue := [{ pendingTask with polls := 1 }] },
        ExecAction.polledPending) ∧
    ({ pendingTask with polls := 1 } ∈
      ({ task_queue := [{ pendingTask with polls := 1 }] } : SimpleExecutor).task_queue) ∧
    dummy_wake { task_queue := [pendingTask] } = { task_queue := [pendingTask] } :=
  ⟨rfl, List.mem_singleton_self _, rfl⟩

/-- C2 amended: a task that is polled and returns `Pending` is immediately
pushed to the back of the task queue, independently of any waker activity,
and the dummy waking handle is a no-op — invoking it `k` times (any
`k ≥ 0`) leaves the executor state unchanged, so wake invocations neither
cause nor multiply re-polls: the task is re-polled once per pass of the run
loop regardless. -/
theorem pending_requeue_amended (e : SimpleExecutor) (t : Task)
    (rest : List Task) (k : Nat)
    (hq : e.task_queue = t :: rest) (hp : (t.poll).1 = TaskPoll.pending) :
    SimpleExecutor.runStep e =
      some ({ task_queue := rest ++ [(t.poll).2] }, ExecAction.polledPending) ∧
    dummy_wake^[k] e = e := by
  constructor
  · unfold SimpleExecutor.runStep
    rw [hq]
    dsimp only
    have h2 : t.poll = (TaskPoll.pending, (t.poll).2) := by
      rw [← hp]
    rw [h2]
  · exact Function.iterate_fixed rfl k

/-- Witness for C2 amended, at a one-task executor whose task always
returns `Pending`, with three wake invocations. -/
theorem pending_requeue_amended_witness :
    (({ task_queue := [pendingTask] } : SimpleExecutor).task_queue =
       pendingTask :: []) ∧
    ((pendingTask.poll).1 = TaskPoll.pending) ∧
    (SimpleExecutor.runStep { task_queue := [pendingTask] } =
       some ({ task_queue := [] ++ [(pendingTask.poll).2] },
         ExecAction.polledPending) ∧
     dummy_wake^[3] { task_queue := [pendingTask] } = { task_queue := [pendingTask] }) :=
  ⟨rfl, rfl,
   pending_requeue_amended { task_queue := [pendingTask] } pendingTask [] 3 rfl rfl⟩

/-- C3 counterexample: with a single suspended (never-finishing) task, two
consecutive iterations of `SimpleExecutor::run` both poll the task again
immediately — the executor busy-spins; neither iteration is a low-power
`hlt` wait. -/
theorem busy_spin_cex :
    SimpleExecutor.runStep { task_queue := [{ pendingTask with polls := 1 }] } =
      some ({ task_queue := [{ pendingTask with polls := 2 }] },
        ExecAction.polledPending) ∧
    SimpleExecutor.runStep { task_queue := [{ pendingTask with polls := 2 }] } =
      some ({ task_queue := [{ pendingTask with polls := 3 }] },
        ExecAction.polledPending) ∧
    ExecAction.polledPending ≠ ExecAction.hlt :=
  ⟨rfl, rfl, by decide⟩

/-- C3 amended: `SimpleExecutor::run` never halts the processor — no
iteration of its loop performs a low-power wait, whether or not suspended
tasks exist; the loop keeps polling (a `Pending` task is re-enqueued at
once, so the queue stays nonempty) and exits only when the task queue is
empty, i.e. when every task has completed. -/
theorem run_loop_no_hlt_amended (e : SimpleExecutor) :
    (SimpleExecutor.runStep e = none ↔ e.task_queue = []) ∧
    (∀ e', SimpleExecutor.runStep e ≠ some (e', ExecAction.hlt)) := by
  constructor
  · constructor
    · intro h
      cases hq : e.task_queue with
      | nil => rfl
      | cons t rest =>
        unfold SimpleExecutor.runStep at h
        rw [hq] at h
        dsimp only at h
        rcases htp : t.poll with ⟨p1, p2⟩
        rw [htp] at h
        cases p1 <;> simp at h
    · intro h
      unfold SimpleExecutor.runStep
      rw [h]
  · intro e' h
    cases hq : e.task_queue with
    | nil =>
      unfold SimpleExecutor.runStep at h
      rw [hq] at h
      simp at h
    | cons t rest =>
      unfold SimpleExecutor.runStep at h
      rw [hq] at h
      dsimp only at h
      rcases htp : t.poll with ⟨p1, p2⟩
      rw [htp] at h
      cases p1 <;> simp at h

/-- Witness for C3 amended, at the empty executor. -/
theorem run_loop_no_hlt_amended_witness :
    (SimpleExecutor.runStep { task_queue := [] } = none ↔
      ({ task_queue := [] } : SimpleExecutor).task_queue = []) ∧
    (∀ e', SimpleExecutor.runStep { task_queue := [] } ≠
      some (e', ExecAction.hlt)) :=
  run_loop_no_hlt_amended { task_queue := [] }

end BlogOS
